import Mathlib

/-!
Verification of the `prettytable` Go package (github.com/deny-7/prettytable)
against its natural-language specification.

The development shallowly embeds the package's data model and operations:

* Go strings are Lean `String`s.  Go's builtin `len` on a string counts
  UTF-8 bytes, embedded here as `goLen`; `len([]rune(s))` counts code
  points, embedded as `runeWidth` (mirroring the source helper of the
  same name).
* Cell values (`any` in Go) are embedded by the scalar universe the
  package renders: strings, integers and booleans.  `sprintfV` embeds
  `fmt.Sprintf` with the `%v` verb on these values.
* The `*Table` methods mutate their receiver; each is embedded as a
  function returning the updated table (together with the error value or
  the rendered string the method produces).
* The single external call whose behaviour the repository does not fix
  is `sort.Slice` (Go's standard library, a pattern-defeating quicksort
  whose contract explicitly does not promise stability).  It is embedded
  as an explicit parameter `sf : SortFn` — a function from the comparator
  and the (already copied) slice to the permuted slice.  Every theorem
  below that involves rendering is proved for an arbitrary `sf`, so the
  results hold for every standard-library implementation.  Closed
  evaluations instantiate `sf` with `sortId`; they are arranged so the
  sort branch is never reached, making the instantiation irrelevant.
-/

namespace Prettytable

/-- Embeds the Go `Alignment` enumeration (`AlignLeft`, `AlignCenter`,
`AlignRight`). -/
inductive Alignment where
  | AlignLeft
  | AlignCenter
  | AlignRight
deriving DecidableEq, Repr

/-- Embeds the scalar values the package stores in cells (`any` in Go):
strings, integers, booleans. -/
inductive Cell where
  | str (s : String)
  | int (n : Int)
  | bool (b : Bool)
deriving DecidableEq, Repr

/-- A table row (`[]any` in Go). -/
abbrev Row := List Cell

/-- Embeds `fmt.Sprintf` with verb `%v` on the embedded scalar universe:
strings pass through, integers print in decimal, booleans print as
`true`/`false`. -/
def sprintfV : Cell → String
  | .str s => s
  | .int n => toString n
  | .bool b => if b then "true" else "false"

/-- UTF-8 byte length of a character list. -/
def utf8Len : List Char → Nat
  | [] => 0
  | c :: cs => c.utf8Size + utf8Len cs

/-- Embeds Go's builtin `len` on a string: the number of UTF-8 bytes. -/
def goLen (s : String) : Nat := utf8Len s.data

/-- Embeds the source helper `runeWidth`: `len([]rune(s))`, the number of
Unicode code points in `s`. -/
def runeWidth (s : String) : Nat := s.data.length

/-- Embeds `strings.Repeat s n` (count is a natural number; the source
only calls it with non-negative counts). -/
def goRepeat (s : String) : Nat → String
  | 0 => ""
  | n + 1 => s ++ goRepeat s n

/-- Embeds the source `padString`: left-pad-only padding to byte width
`w`.  Go's test `len(s) >= w` on machine integers coincides with the
truncated-subtraction test used here, since `w` is a natural number. -/
def padString (s : String) (w : Nat) : String :=
  if w - goLen s = 0 then s
  else s ++ goRepeat " " (w - goLen s)

/-- Embeds the source `padAlign`: pads `s` with spaces to byte width `w`
under the given alignment.  The source computes `pad := w - len(s)` and
returns `s` unchanged when `pad <= 0`; with `w : Nat` and truncated
subtraction that is exactly the test `w - goLen s = 0`. -/
def padAlign (s : String) (w : Nat) (align : Alignment) : String :=
  let pad := w - goLen s
  if pad = 0 then s
  else
    match align with
    | .AlignRight => goRepeat " " pad ++ s
    | .AlignCenter =>
        let l := pad / 2
        let r := pad - l
        goRepeat " " l ++ s ++ goRepeat " " r
    | .AlignLeft => s ++ goRepeat " " pad

/-- Embeds the source `padAlignUnicode`: pads `s` with spaces to
code-point width `w` under the given alignment (widths measured with
`runeWidth`, mirroring `r := []rune(s); pad := w - len(r)`). -/
def padAlignUnicode (s : String) (w : Nat) (align : Alignment) : String :=
  let pad := w - runeWidth s
  if pad = 0 then s
  else
    match align with
    | .AlignRight => goRepeat " " pad ++ s
    | .AlignCenter =>
        let l := pad / 2
        let r := pad - l
        goRepeat " " l ++ s ++ goRepeat " " r
    | .AlignLeft => s ++ goRepeat " " pad

/-- Embeds the Go `TableStyle` struct: style options that are stored on
the table.  `CustomFormat` (a map from field name to formatting
function) is embedded as an association list. -/
structure TableStyle where
  Border : Bool := false
  PreserveInternalBorder : Bool := false
  Header : Bool := false
  HRule : String := ""
  VRule : String := ""
  IntFormat : String := ""
  FloatFormat : String := ""
  CustomFormat : List (String × (String → Cell → String)) := []
  PaddingWidth : Int := 0
  LeftPaddingWidth : Int := 0
  RightPaddingWidth : Int := 0
  VerticalChar : String := ""
  HorizontalChar : String := ""
  HorizontalAlignChar : String := ""
  JunctionChar : String := ""
  TopJunctionChar : String := ""
  BottomJunctionChar : String := ""
  RightJunctionChar : String := ""
  LeftJunctionChar : String := ""
  TopRightJunctionChar : String := ""
  TopLeftJunctionChar : String := ""
  BottomRightJunctionChar : String := ""
  BottomLeftJunctionChar : String := ""
  MinTableWidth : Int := 0
  MaxTableWidth : Int := 0
  MaxWidth : Int := 0
  MinWidth : Int := 0
  UseHeaderWidth : Option Bool := none
  BreakOnHyphens : Option Bool := none

/-- The zero value of `TableStyle` (what a Go `TableStyle` literal with
no fields set, and the style of a fresh table, holds). -/
def defaultStyle : TableStyle := {}

/-- Embeds the Go `Table` struct.  The `alignments` map (`nil` or a
`map[string]Alignment`) is embedded as an optional lookup function; the
`rowFilter` function pointer as an optional predicate. -/
structure Table where
  fieldNames : List String
  rows : List Row
  alignments : Option (String → Option Alignment)
  sortBy : String
  reverseSort : Bool
  rowFilter : Option (Row → Bool)
  style : TableStyle

/-- Embeds `NewTable`: the zero-valued table. -/
def NewTable : Table :=
  { fieldNames := [], rows := [], alignments := none, sortBy := ""
    reverseSort := false, rowFilter := none, style := defaultStyle }

/-- Embeds `NewTableWithFields`. -/
def NewTableWithFields (fields : List String) : Table :=
  { NewTable with fieldNames := fields }

/-- Errors returned by the mutation operations, following the spec's
error taxonomy.  The source produces them with `fmt.Errorf`; the payload
records the values interpolated into the message. -/
inductive TableError where
  | columnCountMismatch (got expected : Nat)
  | indexOutOfRange (index : Int)
  | columnNotFound (name : String)
deriving DecidableEq, Repr

/-- Embeds `(*Table).AddRow`: returns the error produced (if any)
together with the table after the call. -/
def AddRow (t : Table) (row : Row) : Option TableError × Table :=
  if 0 < t.fieldNames.length ∧ row.length ≠ t.fieldNames.length then
    (some (.columnCountMismatch row.length t.fieldNames.length), t)
  else
    (none, { t with rows := t.rows ++ [row] })

/-- Embeds `(*Table).AddColumn`: appends a field name; when the table
has no rows it creates one singleton row per column value, otherwise it
appends each value to the corresponding existing row. -/
def AddColumn (t : Table) (field : String) (column : List Cell) :
    Option TableError × Table :=
  if 0 < t.rows.length ∧ column.length ≠ t.rows.length then
    (some (.columnCountMismatch column.length t.rows.length), t)
  else
    let fns := t.fieldNames ++ [field]
    if t.rows.length = 0 then
      (none, { t with fieldNames := fns, rows := column.map (fun v => [v]) })
    else
      (none, { t with fieldNames := fns
                      rows := List.zipWith (fun r v => r ++ [v]) t.rows column })

/-- Embeds `(*Table).SetSortBy`. -/
def SetSortBy (t : Table) (field : String) (reverse : Bool) : Table :=
  { t with sortBy := field, reverseSort := reverse }

/-- Embeds `(*Table).SetRowFilter`. -/
def SetRowFilter (t : Table) (filter : Option (Row → Bool)) : Table :=
  { t with rowFilter := filter }

/-- Embeds `(*Table).SetStyle`. -/
def SetStyle (t : Table) (style : TableStyle) : Table :=
  { t with style := style }

/-- Byte sequence of a string under UTF-8 (Go strings are byte slices). -/
def bytes (s : String) : List UInt8 := s.toUTF8.data.toList

/-- Lexicographic order on byte sequences. -/
def lexLtBytes : List UInt8 → List UInt8 → Bool
  | _, [] => false
  | [], _ :: _ => true
  | a :: as, b :: bs => a < b || (a == b && lexLtBytes as bs)

/-- Embeds Go's `<` operator on strings: lexicographic byte-order
comparison of the UTF-8 encodings. -/
def goStrLt (a b : String) : Bool := lexLtBytes (bytes a) (bytes b)

/-- Signature of the external `sort.Slice` call (standard library, not
part of this repository): it receives the element comparator derived
from the source's `less` closure and the copied row slice, and returns
the permuted slice.  Theorems are stated for an arbitrary such function,
so they hold for the actual standard-library sorting algorithm. -/
abbrev SortFn := (Row → Row → Bool) → List Row → List Row

/-- Trivial instantiation of `SortFn` used only in closed evaluations
whose tables never reach the sorting branch. -/
def sortId : SortFn := fun _ rows => rows

/-- Embeds the `less` closure built in `RenderASCII`/`RenderUnicode`:
compares two rows by the textual representation of the cell in column
`idx`, reversed when `reverseSort` is set.  (Go indexes `row[idx]`
directly and would panic on a row shorter than `idx + 1`; the embedding
reads a default there.) -/
def lessAt (t : Table) (idx : Nat) (r1 r2 : Row) : Bool :=
  let si := sprintfV (r1.getD idx (Cell.str ""))
  let sj := sprintfV (r2.getD idx (Cell.str ""))
  if t.reverseSort then goStrLt sj si else goStrLt si sj

/-- Embeds the index-search loop of the sorting phase: the index of the
first field name equal to the key, if any (`idx` stays `-1` in Go when
there is no match). -/
def goFindIdx (key : String) : List String → Option Nat
  | [] => none
  | name :: rest =>
      if name == key then some 0 else (goFindIdx key rest).map (· + 1)

/-- Embeds the filtering phase shared by `RenderASCII` and
`RenderUnicode`: when a row filter is set, keep exactly the rows it
accepts, in order. -/
def filteredRows (t : Table) : List Row :=
  match t.rowFilter with
  | none => t.rows
  | some f => t.rows.filter f

/-- Embeds the query pipeline of `RenderASCII`/`RenderUnicode`: filter,
then — when the sort key is non-empty and matches a field name — sort
the (copied) filtered rows with `sort.Slice` (the `sf` parameter). -/
def workingRows (sf : SortFn) (t : Table) : List Row :=
  let rows := filteredRows t
  if t.sortBy ≠ "" then
    match goFindIdx t.sortBy t.fieldNames with
    | some idx => sf (lessAt t idx) rows
    | none => rows
  else rows

/-- Embeds the alignment lookup both renderers perform: `AlignLeft`
unless the `alignments` map exists and has an entry for the name. -/
def alignOf (t : Table) (name : String) : Alignment :=
  match t.alignments with
  | none => .AlignLeft
  | some m => (m name).getD .AlignLeft

/-- Per-row column-width update: each cell can only widen its column
(`if len(cellStr) > colWidths[i]`).  A row shorter than the width list
leaves the remaining widths unchanged; Go would panic on a row longer
than the width list, and the embedding drops the excess cells. -/
def bumpRow (measure : String → Nat) : List Nat → Row → List Nat
  | ws, [] => ws
  | [], _ => []
  | w :: ws, c :: cs => max w (measure (sprintfV c)) :: bumpRow measure ws cs

/-- Embeds the column-width computation of both box renderers: start
from the field-name widths, then widen by every row of the working set. -/
def colWidthsBy (measure : String → Nat) (fields : List String)
    (rows : List Row) : List Nat :=
  rows.foldl (bumpRow measure) (fields.map measure)

/-- Embeds the `line` helper of `RenderASCII`: `sep`, then for every
column `fill` repeated `w+2` times followed by `sep`. -/
def asciiLine (widths : List Nat) (sep fill : String) : String :=
  widths.foldl (fun acc w => acc ++ goRepeat fill (w + 2) ++ sep) sep

/-- Embeds the header row of `RenderASCII`. -/
def asciiHeader (t : Table) (widths : List Nat) : String :=
  (t.fieldNames.zip widths).foldl
    (fun acc p => acc ++ " " ++ padAlign p.1 p.2 (alignOf t p.1) ++ " |") "|"

/-- Embeds a data row of `RenderASCII`: cell `i` is padded to
`colWidths[i]` under the alignment of field `i`.  (Go would panic on a
row longer than the field list; the embedding drops the excess.) -/
def asciiRow (t : Table) (widths : List Nat) (row : Row) : String :=
  (row.zip (t.fieldNames.zip widths)).foldl
    (fun acc p =>
      acc ++ " " ++ padAlign (sprintfV p.1) p.2.2 (alignOf t p.2.1) ++ " |") "|"

/-- The layout-and-emit phase of `RenderASCII`, applied to an explicit
row set (the source applies it to the working row set). -/
def RenderASCIIFrom (t : Table) (rows : List Row) : String :=
  let widths := colWidthsBy goLen t.fieldNames rows
  let hline := asciiLine widths "+" "-"
  hline ++ "\n" ++ asciiHeader t widths ++ "\n" ++ hline ++ "\n"
    ++ String.join (rows.map (fun r => asciiRow t widths r ++ "\n"))
    ++ hline

/-- Embeds `(*Table).RenderASCII`. -/
def RenderASCII (sf : SortFn) (t : Table) : String :=
  if t.fieldNames.length = 0 then "(no fields)"
  else RenderASCIIFrom t (workingRows sf t)

/-- State-passing form of `(*Table).RenderASCII`: the method reads its
receiver and assigns to none of its fields (the sort operates on a
copied slice, `sorted := make(...); copy(sorted, rows)`), so the state
it leaves behind is its input state. -/
def RenderASCIIM (sf : SortFn) (t : Table) : String × Table :=
  (RenderASCII sf t, t)

/-- Embeds the `line` helper of `RenderUnicode`: `left`, the per-column
`mid` runs joined by `sep`, then `right`. -/
def unicodeLine (widths : List Nat) (left mid right sep : String) : String :=
  left ++ String.intercalate sep (widths.map (fun w => goRepeat mid (w + 2))) ++ right

/-- Embeds the header row of `RenderUnicode`. -/
def unicodeHeader (t : Table) (widths : List Nat) : String :=
  (t.fieldNames.zip widths).foldl
    (fun acc p => acc ++ " " ++ padAlignUnicode p.1 p.2 (alignOf t p.1) ++ " │") "│"

/-- Embeds a data row of `RenderUnicode`. -/
def unicodeRow (t : Table) (widths : List Nat) (row : Row) : String :=
  (row.zip (t.fieldNames.zip widths)).foldl
    (fun acc p =>
      acc ++ " " ++ padAlignUnicode (sprintfV p.1) p.2.2 (alignOf t p.2.1) ++ " │") "│"

/-- The layout-and-emit phase of `RenderUnicode`, applied to an explicit
row set. -/
def RenderUnicodeFrom (t : Table) (rows : List Row) : String :=
  let widths := colWidthsBy runeWidth t.fieldNames rows
  let top := unicodeLine widths "┌" "─" "┐" "┬"
  let mid := unicodeLine widths "├" "─" "┤" "┼"
  let bot := unicodeLine widths "└" "─" "┘" "┴"
  top ++ "\n" ++ unicodeHeader t widths ++ "\n" ++ mid ++ "\n"
    ++ String.join (rows.map (fun r => unicodeRow t widths r ++ "\n"))
    ++ bot

/-- Embeds `(*Table).RenderUnicode`. -/
def RenderUnicode (sf : SortFn) (t : Table) : String :=
  if t.fieldNames.length = 0 then "(no fields)"
  else RenderUnicodeFrom t (workingRows sf t)

/-- State-passing form of `(*Table).RenderUnicode`; as with ASCII, the
method writes no field of its receiver. -/
def RenderUnicodeM (sf : SortFn) (t : Table) : String × Table :=
  (RenderUnicode sf t, t)

/-- Embeds `strings.TrimRight(s, "\n")`: removes every trailing newline
character. -/
def goTrimRightNl (s : String) : String :=
  String.mk ((s.data.reverse.dropWhile (fun c => c == '\n')).reverse)

/-- Embeds `(*Table).RenderMarkdown`.  Note that it reads the raw stored
`t.rows`, not the working row set. -/
def RenderMarkdown (t : Table) : String :=
  if t.fieldNames.length = 0 then "(no fields)"
  else
    let header := t.fieldNames.foldl (fun acc name => acc ++ name ++ " | ") "| "
    let sep := t.fieldNames.foldl (fun acc _ => acc ++ "--- | ") ""
    let body := String.join (t.rows.map (fun row =>
      row.foldl (fun acc c => acc ++ sprintfV c ++ " | ") "| " ++ "\n"))
    goTrimRightNl (header ++ "\n| " ++ sep ++ "\n" ++ body)

/-- Embeds `encoding/csv`'s `fieldNeedsQuotes` for comma-delimited
output: empty fields and plain fields go unquoted; a field equal to
`\.`, containing a comma, quote, CR or LF, or starting with white space
is quoted.  (Go tests the first rune with `unicode.IsSpace`; the
embedding uses `Char.isWhitespace`, which agrees on the ASCII range the
renderers are specified over.) -/
def csvNeedsQuotes (field : String) : Bool :=
  if field == "" then false
  else if field == "\\." then true
  else if field.any (fun c => c == ',' || c == '"' || c == '\r' || c == '\n') then true
  else
    match field.data with
    | c :: _ => c.isWhitespace
    | [] => false

/-- Embeds the quoted-field output of `encoding/csv` with `UseCRLF`
unset: wrap in quotes and double every inner quote (CR and LF are
emitted verbatim inside quotes). -/
def csvField (field : String) : String :=
  if csvNeedsQuotes field then "\"" ++ String.replace field "\"" "\"\"" ++ "\""
  else field

/-- One CSV record: comma-joined fields terminated by a newline. -/
def csvRecord (fields : List String) : String :=
  String.intercalate "," (fields.map csvField) ++ "\n"

/-- Embeds `(*Table).RenderCSV`: the field-name record followed by one
record per raw stored row (cells through the `%v` formatter).  It reads
`t.rows` directly, not the working row set. -/
def RenderCSV (t : Table) : String :=
  csvRecord t.fieldNames
    ++ String.join (t.rows.map (fun row => csvRecord (row.map sprintfV)))

/-- Lower-case hexadecimal digit, as used by `encoding/json`. -/
def hexDigit (n : Nat) : Char :=
  if n < 10 then Char.ofNat ('0'.toNat + n) else Char.ofNat ('a'.toNat + (n - 10))

/-- Embeds `encoding/json`'s string escaping (HTML escaping on, its
default): quote, backslash, the HTML-sensitive `<` `>` `&`, control
characters, and U+2028/U+2029. -/
def jsonEscapeChar (c : Char) : String :=
  if c == '"' then "\\\""
  else if c == '\\' then "\\\\"
  else if c == '\n' then "\\n"
  else if c == '\r' then "\\r"
  else if c == '\t' then "\\t"
  else if c == '<' then "\\u003c"
  else if c == '>' then "\\u003e"
  else if c == '&' then "\\u0026"
  else if c.toNat < 32 then
    "\\u00" ++ String.mk [hexDigit (c.toNat / 16), hexDigit (c.toNat % 16)]
  else if c.toNat = 8232 then "\\u2028"
  else if c.toNat = 8233 then "\\u2029"
  else String.mk [c]

/-- JSON string literal for `s`. -/
def jsonString (s : String) : String :=
  "\"" ++ String.join (s.data.map jsonEscapeChar) ++ "\""

/-- JSON encoding of a cell value (`RenderJSON` stores raw values, not
their `%v` strings, in the objects). -/
def jsonValue : Cell → String
  | .str s => jsonString s
  | .int n => toString n
  | .bool b => if b then "true" else "false"

/-- Map insertion with overwrite: embeds `obj[name] = row[j]` on a Go
map (later assignments to the same key replace the earlier value). -/
def upsert (l : List (String × Cell)) (k : String) (v : Cell) :
    List (String × Cell) :=
  match l with
  | [] => [(k, v)]
  | (k', v') :: rest => if k' == k then (k', v) :: rest else (k', v') :: upsert rest k v

/-- Embeds the object-building loop of `RenderJSON`: walk the field
names with their index `j`, storing `row[j]` for every field whose index
is within the row. -/
def objOfRowAux (row : Row) : List String → Nat → List (String × Cell) →
    List (String × Cell)
  | [], _, acc => acc
  | name :: rest, j, acc =>
      objOfRowAux row rest (j + 1)
        (if j < row.length then upsert acc name (row.getD j (Cell.str "")) else acc)

/-- Ordered insertion by byte-lexicographic key order. -/
def insertSorted (p : String × Cell) : List (String × Cell) →
    List (String × Cell)
  | [] => [p]
  | q :: rest => if goStrLt p.1 q.1 then p :: q :: rest else q :: insertSorted p rest

/-- Embeds `encoding/json`'s canonical map-key ordering: object members
are emitted in ascending byte order of their keys. -/
def sortByKey (l : List (String × Cell)) : List (String × Cell) :=
  l.foldr insertSorted []

/-- Pretty-printed JSON object as `json.MarshalIndent(_, "", "  ")`
nests it at one level inside the array. -/
def jsonObj (indent : String) (obj : List (String × Cell)) : String :=
  match obj with
  | [] => "\x7b\x7d"
  | _ =>
      "\x7b\n"
        ++ String.intercalate ",\n"
            (obj.map (fun p => indent ++ "  " ++ jsonString p.1 ++ ": " ++ jsonValue p.2))
        ++ "\n" ++ indent ++ "\x7d"

/-- Embeds `(*Table).RenderJSON`: one object per raw stored row, pretty
printed with two-space indentation.  It reads `t.rows` directly, not the
working row set. -/
def RenderJSON (t : Table) : String :=
  let objs := t.rows.map (fun row => sortByKey (objOfRowAux row t.fieldNames 0 []))
  match objs with
  | [] => "[]"
  | _ =>
      "[\n"
        ++ String.intercalate ",\n" (objs.map (fun o => "  " ++ jsonObj "  " o))
        ++ "\n]"

/-- Embeds the `escape` closure of `RenderHTML`: the four replacements
applied in source order (`&` first, then `<`, `>`, `"`). -/
def htmlEscapeSeq (s : String) : String :=
  ((((s.replace "&" "&amp;").replace "<" "&lt;").replace ">" "&gt;").replace "\"" "&quot;")

/-- Embeds `(*Table).RenderHTML`.  It reads `t.rows` directly, not the
working row set. -/
def RenderHTML (t : Table) : String :=
  "<table border=\"1\">\n<tr>"
    ++ String.join (t.fieldNames.map (fun name => "<th>" ++ htmlEscapeSeq name ++ "</th>"))
    ++ "</tr>\n"
    ++ String.join (t.rows.map (fun row =>
        "<tr>"
          ++ String.join (row.map (fun c => "<td>" ++ htmlEscapeSeq (sprintfV c) ++ "</td>"))
          ++ "</tr>\n"))
    ++ "</table>"

/-- Embeds the `escape` closure of `RenderLaTeX`: the ten replacements
applied in source order (note that the braces introduced by the earlier
`\textbackslash` replacement are themselves rewritten by the later
brace replacements, exactly as the sequential `strings.ReplaceAll`
calls do). -/
def latexEscapeSeq (s : String) : String :=
  let s := s.replace "\\" "\\textbackslash\x7b\x7d"
  let s := s.replace "_" "\\_"
  let s := s.replace "&" "\\&"
  let s := s.replace "%" "\\%"
  let s := s.replace "$" "\\$"
  let s := s.replace "#" "\\#"
  let s := s.replace "\x7b" "\\\x7b"
  let s := s.replace "\x7d" "\\\x7d"
  let s := s.replace "~" "\\textasciitilde\x7b\x7d"
  s.replace "^" "\\textasciicircum\x7b\x7d"

/-- Embeds `(*Table).RenderLaTeX`.  It reads `t.rows` directly, not the
working row set. -/
def RenderLaTeX (t : Table) : String :=
  "\\begin\x7btabular\x7d\x7b|" ++ goRepeat "l|" t.fieldNames.length ++ "\x7d\n\\hline\n"
    ++ String.intercalate " & " (t.fieldNames.map latexEscapeSeq)
    ++ " \\ \\hline\n"
    ++ String.join (t.rows.map (fun row =>
        String.intercalate " & " (row.map (fun c => latexEscapeSeq (sprintfV c)))
          ++ " \\ \\hline\n"))
    ++ "\\end\x7btabular\x7d"

/-- Embeds `(*Table).RenderMediaWiki`.  It reads `t.rows` directly, not
the working row set. -/
def RenderMediaWiki (t : Table) : String :=
  "\x7b| class=\"wikitable\"\n|-"
    ++ String.join (t.fieldNames.map (fun name => "! " ++ name ++ " "))
    ++ "\n"
    ++ String.join (t.rows.map (fun row =>
        "|-" ++ String.join (row.map (fun c => "| " ++ sprintfV c ++ " ")) ++ "\n"))
    ++ "|\x7d"

/-- Embeds `strings.ToLower` as used by the format dispatcher (ASCII
case folding; the dispatcher only compares against ASCII literals). -/
def goToLower (s : String) : String := String.mk (s.data.map Char.toLower)

/-- Embeds `(*Table).GetFormattedString`: case-insensitive dispatch on
the format name, defaulting to ASCII. -/
def GetFormattedString (sf : SortFn) (t : Table) (format : String) : String :=
  let f := goToLower format
  if f == "text" || f == "ascii" then RenderASCII sf t
  else if f == "csv" then RenderCSV t
  else if f == "json" then RenderJSON t
  else if f == "html" then RenderHTML t
  else if f == "latex" then RenderLaTeX t
  else if f == "mediawiki" then RenderMediaWiki t
  else if f == "markdown" then RenderMarkdown t
  else RenderASCII sf t

/-- The row-length invariant of the spec's data model: every stored
row's length equals the field-name count. -/
def WF (t : Table) : Prop :=
  ∀ r ∈ t.rows, r.length = t.fieldNames.length

instance (t : Table) : Decidable (WF t) := by
  unfold WF; infer_instance

/-! Basic facts about the width measures and space padding. -/

theorem goData_append (s t : String) : (s ++ t).data = s.data ++ t.data := by
  cases s; cases t; rfl

theorem utf8Len_append (a b : List Char) :
    utf8Len (a ++ b) = utf8Len a + utf8Len b := by
  induction a with
  | nil => simp [utf8Len]
  | cons c cs ih => simp [utf8Len, ih, Nat.add_assoc]

theorem goLen_append (s t : String) : goLen (s ++ t) = goLen s + goLen t := by
  simp [goLen, goData_append, utf8Len_append]

theorem goLen_space : goLen " " = 1 := by decide

theorem goLen_spaces (n : Nat) : goLen (goRepeat " " n) = n := by
  induction n with
  | zero => rfl
  | succ k ih => simp [goRepeat, goLen_append, ih, goLen_space, Nat.add_comm]

theorem runeWidth_append (s t : String) :
    runeWidth (s ++ t) = runeWidth s + runeWidth t := by
  simp [runeWidth, goData_append]

theorem runeWidth_space : runeWidth " " = 1 := by decide

theorem runeWidth_spaces (n : Nat) : runeWidth (goRepeat " " n) = n := by
  induction n with
  | zero => rfl
  | succ k ih => simp [goRepeat, runeWidth_append, ih, runeWidth_space, Nat.add_comm]

/-- Characterization of `padAlign`: no truncation at or above the target
byte width; otherwise padding of the stated shape on the stated side,
reaching exactly the target width, with the odd space (when the padding
is odd) on the right of a centered cell. -/
theorem padAlign_cases (s : String) (w : Nat) (a : Alignment) :
    (w ≤ goLen s → padAlign s w a = s) ∧
    (goLen s < w →
      goLen (padAlign s w a) = w ∧
      (a = .AlignLeft → padAlign s w a = s ++ goRepeat " " (w - goLen s)) ∧
      (a = .AlignRight → padAlign s w a = goRepeat " " (w - goLen s) ++ s) ∧
      (a = .AlignCenter →
        padAlign s w a =
          goRepeat " " ((w - goLen s) / 2) ++ s
            ++ goRepeat " " ((w - goLen s) - (w - goLen s) / 2) ∧
        (w - goLen s) - (w - goLen s) / 2 =
          (w - goLen s) / 2 + (w - goLen s) % 2)) := by
  constructor
  · intro h
    have hz : w - goLen s = 0 := Nat.sub_eq_zero_of_le h
    simp [padAlign, hz]
  · intro h
    have hnz : w - goLen s ≠ 0 := by omega
    have hlen : goLen (padAlign s w a) = w := by
      cases a <;>
        simp [padAlign, hnz, goLen_append, goLen_spaces] <;> omega
    refine ⟨hlen, ?_, ?_, ?_⟩
    · rintro rfl; simp [padAlign, hnz]
    · rintro rfl; simp [padAlign, hnz]
    · rintro rfl
      refine ⟨by simp [padAlign, hnz], by omega⟩

/-- Characterization of `padAlignUnicode`, identical in shape with the
code-point width measure. -/
theorem padAlignUnicode_cases (s : String) (w : Nat) (a : Alignment) :
    (w ≤ runeWidth s → padAlignUnicode s w a = s) ∧
    (runeWidth s < w →
      runeWidth (padAlignUnicode s w a) = w ∧
      (a = .AlignLeft → padAlignUnicode s w a = s ++ goRepeat " " (w - runeWidth s)) ∧
      (a = .AlignRight → padAlignUnicode s w a = goRepeat " " (w - runeWidth s) ++ s) ∧
      (a = .AlignCenter →
        padAlignUnicode s w a =
          goRepeat " " ((w - runeWidth s) / 2) ++ s
            ++ goRepeat " " ((w - runeWidth s) - (w - runeWidth s) / 2) ∧
        (w - runeWidth s) - (w - runeWidth s) / 2 =
          (w - runeWidth s) / 2 + (w - runeWidth s) % 2)) := by
  constructor
  · intro h
    have hz : w - runeWidth s = 0 := Nat.sub_eq_zero_of_le h
    simp [padAlignUnicode, hz]
  · intro h
    have hnz : w - runeWidth s ≠ 0 := by omega
    have hlen : runeWidth (padAlignUnicode s w a) = w := by
      cases a <;>
        simp [padAlignUnicode, hnz, runeWidth_append, runeWidth_spaces] <;> omega
    refine ⟨hlen, ?_, ?_, ?_⟩
    · rintro rfl; simp [padAlignUnicode, hnz]
    · rintro rfl; simp [padAlignUnicode, hnz]
    · rintro rfl
      refine ⟨by simp [padAlignUnicode, hnz], by omega⟩

/-- C7: for every string, target width and alignment, a cell whose
display width is at least the target is returned unchanged (no
truncation); otherwise the result is space-padded to exactly the target
width, with Left putting all padding on the right, Right putting it all
on the left, and Center splitting it so that the odd remainder goes to
the right side.  Stated for `padAlign` (byte widths) and
`padAlignUnicode` (code-point widths). -/
theorem padding_spec (s : String) (w : Nat) (a : Alignment) :
    (w ≤ goLen s → padAlign s w a = s) ∧
    (goLen s < w →
      goLen (padAlign s w a) = w ∧
      (a = .AlignLeft → padAlign s w a = s ++ goRepeat " " (w - goLen s)) ∧
      (a = .AlignRight → padAlign s w a = goRepeat " " (w - goLen s) ++ s) ∧
      (a = .AlignCenter →
        padAlign s w a =
          goRepeat " " ((w - goLen s) / 2) ++ s
            ++ goRepeat " " ((w - goLen s) - (w - goLen s) / 2) ∧
        (w - goLen s) - (w - goLen s) / 2 =
          (w - goLen s) / 2 + (w - goLen s) % 2)) ∧
    (w ≤ runeWidth s → padAlignUnicode s w a = s) ∧
    (runeWidth s < w →
      runeWidth (padAlignUnicode s w a) = w ∧
      (a = .AlignLeft → padAlignUnicode s w a = s ++ goRepeat " " (w - runeWidth s)) ∧
      (a = .AlignRight → padAlignUnicode s w a = goRepeat " " (w - runeWidth s) ++ s) ∧
      (a = .AlignCenter →
        padAlignUnicode s w a =
          goRepeat " " ((w - runeWidth s) / 2) ++ s
            ++ goRepeat " " ((w - runeWidth s) - (w - runeWidth s) / 2) ∧
        (w - runeWidth s) - (w - runeWidth s) / 2 =
          (w - runeWidth s) / 2 + (w - runeWidth s) % 2)) :=
  ⟨(padAlign_cases s w a).1, (padAlign_cases s w a).2,
   (padAlignUnicode_cases s w a).1, (padAlignUnicode_cases s w a).2⟩

/-- Closed instance of `padding_spec` at concrete inputs. -/
theorem padding_spec_witness :
    goLen "ab" < 5 ∧ goLen (padAlign "ab" 5 .AlignCenter) = 5 ∧
    runeWidth "αβ" < 5 ∧ runeWidth (padAlignUnicode "αβ" 5 .AlignRight) = 5 :=
  ⟨by decide, ((padding_spec "ab" 5 .AlignCenter).2.1 (by decide)).1,
   by decide, ((padding_spec "αβ" 5 .AlignRight).2.2.2 (by decide)).1⟩

/-- C5: `AddRow` errors (with a column-count mismatch) exactly when
field names exist and the row length differs from the field-name count;
on error the table is untouched, on success the row is appended at the
end, and with no field names set any row length is accepted. -/
theorem AddRow_spec (t : Table) (row : Row) :
    ((AddRow t row).1.isSome = true ↔
      t.fieldNames ≠ [] ∧ row.length ≠ t.fieldNames.length) ∧
    (∀ e, (AddRow t row).1 = some e →
      e = .columnCountMismatch row.length t.fieldNames.length ∧
      (AddRow t row).2 = t) ∧
    ((AddRow t row).1 = none →
      (AddRow t row).2 = { t with rows := t.rows ++ [row] }) ∧
    (t.fieldNames = [] → (AddRow t row).1 = none) := by
  by_cases h : 0 < t.fieldNames.length ∧ row.length ≠ t.fieldNames.length
  · have hne : t.fieldNames ≠ [] := List.length_pos.mp h.1
    rw [AddRow, if_pos h]
    refine ⟨?_, ?_, ?_, ?_⟩
    · simp [hne, h.2]
    · intro e he
      exact ⟨by cases he; rfl, rfl⟩
    · intro he; cases he
    · intro hf; exact absurd hf hne
  · rw [AddRow, if_neg h]
    refine ⟨?_, ?_, fun _ => rfl, fun _ => rfl⟩
    · simp only [Option.isSome_none, Bool.false_eq_true, false_iff]
      rintro ⟨hne, hlen⟩
      exact h ⟨List.length_pos.mpr hne, hlen⟩
    · intro e he; cases he

/-- Closed instance of `AddRow_spec`: a two-column table rejects a
one-cell row untouched and accepts a two-cell row by appending it. -/
theorem AddRow_spec_witness :
    (AddRow (NewTableWithFields ["A", "B"]) [Cell.str "x"]).2 =
      NewTableWithFields ["A", "B"] ∧
    (AddRow (NewTableWithFields ["A", "B"]) [Cell.str "x", Cell.int 1]).2 =
      { NewTableWithFields ["A", "B"] with rows := [[Cell.str "x", Cell.int 1]] } :=
  ⟨((AddRow_spec (NewTableWithFields ["A", "B"]) [Cell.str "x"]).2.1 _ rfl).2,
   (AddRow_spec (NewTableWithFields ["A", "B"]) [Cell.str "x", Cell.int 1]).2.2.1 rfl⟩

theorem zipWith_append_one_length {k : Nat} :
    ∀ (rows : List Row) (column : List Cell),
      (∀ r ∈ rows, r.length = k) →
      ∀ r ∈ List.zipWith (fun r v => r ++ [v]) rows column, r.length = k + 1 := by
  intro rows
  induction rows with
  | nil => intro column _ r hr; simp at hr
  | cons a rest ih =>
      intro column hall r hr
      cases column with
      | nil => simp at hr
      | cons v vs =>
          simp only [List.zipWith, List.mem_cons] at hr
          rcases hr with h1 | h2
          · subst h1; simp [hall a (by simp)]
          · exact ih vs (fun x hx => hall x (by simp [hx])) r h2

/-- C3 counterexample: on a table with one field name and zero rows, a
successful `AddColumn` creates a singleton row, so the row-length
invariant fails afterwards (row length 1, field-name count 2). -/
theorem AddColumn_zero_rows_breaks_invariant :
    (AddColumn { NewTable with fieldNames := ["A"] } "B" [Cell.int 1]).1 = none ∧
    ¬ WF (AddColumn { NewTable with fieldNames := ["A"] } "B" [Cell.int 1]).2 := by
  decide

/-- C3 (amended): with at least one field name and the invariant holding
before, a successful `AddRow` preserves the row-length invariant, and a
successful `AddColumn` preserves it provided the table has at least one
row or the column is empty (the excluded case — field names present,
zero rows, non-empty column — creates singleton rows shorter than the
new field-name count, see the counterexample). -/
theorem mutation_preserves_row_length (t : Table) (row : Row) (field : String)
    (column : List Cell) (hfn : t.fieldNames ≠ []) (hwf : WF t) :
    ((AddRow t row).1 = none → WF (AddRow t row).2) ∧
    ((t.rows ≠ [] ∨ column = []) → (AddColumn t field column).1 = none →
      WF (AddColumn t field column).2) := by
  constructor
  · intro hok
    by_cases h : 0 < t.fieldNames.length ∧ row.length ≠ t.fieldNames.length
    · rw [AddRow, if_pos h] at hok; cases hok
    · rw [AddRow, if_neg h]
      intro r hr
      rcases List.mem_append.mp hr with h1 | h2
      · exact hwf r h1
      · have h2' : r = row := by simpa using h2
        subst h2'
        by_contra hne
        exact h ⟨List.length_pos.mpr hfn, hne⟩
  · intro hside hok
    by_cases hc : 0 < t.rows.length ∧ column.length ≠ t.rows.length
    · rw [AddColumn, if_pos hc] at hok; cases hok
    · rw [AddColumn, if_neg hc]
      by_cases hz : t.rows.length = 0
      · rw [if_pos hz]
        rcases hside with hr | hcol
        · exact absurd (List.length_eq_zero.mp hz) hr
        · subst hcol; intro r hr; simp at hr
      · rw [if_neg hz]
        intro r hr
        have hr' : r ∈ List.zipWith (fun r v => r ++ [v]) t.rows column := by
          simpa using hr
        have hlen := zipWith_append_one_length t.rows column hwf r hr'
        simpa [List.length_append] using hlen

/-- Closed instance of `mutation_preserves_row_length`: appending a
column to a one-field, one-row table keeps every row as long as the
field-name list. -/
theorem mutation_preserves_row_length_witness :
    WF (AddColumn { NewTable with fieldNames := ["A"], rows := [[Cell.int 0]] }
          "B" [Cell.int 1]).2 :=
  (mutation_preserves_row_length
      { NewTable with fieldNames := ["A"], rows := [[Cell.int 0]] }
      [] "B" [Cell.int 1] (by decide) (by decide)).2
    (Or.inl (by decide)) (by decide)

theorem goFindIdx_eq_none (key : String) (l : List String) (h : key ∉ l) :
    goFindIdx key l = none := by
  induction l with
  | nil => rfl
  | cons a rest ih =>
      have ha : ¬ a = key := fun he => h (by simp [he])
      simp [goFindIdx, ha, ih (fun hm => h (by simp [hm]))]

theorem workingRows_setSortBy_empty (sf : SortFn) (t : Table) (r : Bool) :
    workingRows sf (SetSortBy t "" r) = filteredRows t := by
  simp [workingRows, SetSortBy, filteredRows]

theorem workingRows_subst (sf : SortFn) (t : Table) :
    workingRows sf
        { t with rows := workingRows sf t, rowFilter := none, sortBy := "" } =
      workingRows sf t := by
  conv_lhs => rw [workingRows]
  simp [filteredRows]

/-- C8: a non-empty sort key that matches no field name makes the sort
phase a no-op — the working rows are exactly the post-filter rows, and
rendering equals rendering with the sort disabled; no error arises (the
renderers are total functions). -/
theorem unmatched_sort_key_skips_sorting (sf : SortFn) (t : Table)
    (h1 : t.sortBy ≠ "") (h2 : t.sortBy ∉ t.fieldNames) :
    workingRows sf t = filteredRows t ∧
    RenderASCII sf t = RenderASCII sf (SetSortBy t "" t.reverseSort) ∧
    RenderUnicode sf t = RenderUnicode sf (SetSortBy t "" t.reverseSort) := by
  have hw : workingRows sf t = filteredRows t := by
    simp [workingRows, h1, goFindIdx_eq_none t.sortBy t.fieldNames h2]
  refine ⟨hw, ?_, ?_⟩
  · simp only [RenderASCII]
    rw [hw, workingRows_setSortBy_empty sf t t.reverseSort]
    rfl
  · simp only [RenderUnicode]
    rw [hw, workingRows_setSortBy_empty sf t t.reverseSort]
    rfl

/-- Concrete table with an unmatched sort key, for the closed instance
of the C8 theorem. -/
def tUnmatched : Table :=
  { NewTable with
    fieldNames := ["A"]
    rows := [[Cell.int 2], [Cell.int 1]]
    sortBy := "Z" }

/-- Closed instance of `unmatched_sort_key_skips_sorting`. -/
theorem unmatched_sort_key_skips_sorting_witness :
    workingRows sortId tUnmatched = filteredRows tUnmatched :=
  (unmatched_sort_key_skips_sorting sortId tUnmatched (by decide) (by decide)).1

/-- C10: the empty sort key disables sorting entirely — for every table
(including one with a field actually named by the empty string) the
working rows are the post-filter rows, and the rendered output does not
depend on the sorting function at all, so a column named `""` can never
be sorted by. -/
theorem empty_sort_key_disables_sorting (sf sf' : SortFn) (t : Table) (r : Bool) :
    workingRows sf (SetSortBy t "" r) = filteredRows t ∧
    RenderASCII sf (SetSortBy t "" r) = RenderASCII sf' (SetSortBy t "" r) ∧
    RenderUnicode sf (SetSortBy t "" r) = RenderUnicode sf' (SetSortBy t "" r) := by
  refine ⟨workingRows_setSortBy_empty sf t r, ?_, ?_⟩
  · simp only [RenderASCII]
    rw [workingRows_setSortBy_empty sf t r, workingRows_setSortBy_empty sf' t r]
  · simp only [RenderUnicode]
    rw [workingRows_setSortBy_empty sf t r, workingRows_setSortBy_empty sf' t r]


/-- C6: the rendering methods assign to no field of their receiver (the
sort operates on a copied slice), so with a filter and/or sort key set
the stored field names and the stored row list are unchanged by a render
call. -/
theorem rendering_never_mutates (sf : SortFn) (t : Table)
    (_h : t.rowFilter.isSome = true ∨ t.sortBy ≠ "") :
    ((RenderASCIIM sf t).2.fieldNames = t.fieldNames ∧
      (RenderASCIIM sf t).2.rows = t.rows) ∧
    ((RenderUnicodeM sf t).2.fieldNames = t.fieldNames ∧
      (RenderUnicodeM sf t).2.rows = t.rows) :=
  ⟨⟨rfl, rfl⟩, ⟨rfl, rfl⟩⟩

/-- Concrete table with a sort key set, for the closed instance of the
C6 theorem. -/
def tSorted : Table :=
  { NewTable with
    fieldNames := ["A"]
    rows := [[Cell.int 2], [Cell.int 1]]
    sortBy := "A" }

/-- Closed instance of `rendering_never_mutates`. -/
theorem rendering_never_mutates_witness :
    (RenderASCIIM sortId tSorted).2.rows = tSorted.rows ∧
    (RenderUnicodeM sortId tSorted).2.rows = tSorted.rows :=
  ⟨(rendering_never_mutates sortId tSorted (Or.inr (by decide))).1.2,
   (rendering_never_mutates sortId tSorted (Or.inr (by decide))).2.2⟩

/-- C9: no renderer reads the stored style, so the output of the format
dispatcher after `SetStyle` with any style record is byte-identical to
the output with the zero style, for every format name. -/
theorem style_never_affects_output (sf : SortFn) (t : Table)
    (style : TableStyle) (format : String) :
    GetFormattedString sf (SetStyle t style) format =
      GetFormattedString sf (SetStyle t defaultStyle) format := rfl

/-- C1 (amended): only the ASCII and Unicode renderers consume the
filtered-then-sorted working row set — each equals itself re-run on a
table whose stored rows are the working rows and whose query state is
cleared; the Markdown, CSV, JSON, HTML, LaTeX and MediaWiki renderers
are computed from the raw stored row list and ignore the row filter,
sort key and sort direction entirely. -/
theorem renderer_row_sources (sf : SortFn) (t : Table)
    (f : Option (Row → Bool)) (s : String) (b : Bool) :
    RenderASCII sf t =
      RenderASCII sf
        { t with rows := workingRows sf t, rowFilter := none, sortBy := "" } ∧
    RenderUnicode sf t =
      RenderUnicode sf
        { t with rows := workingRows sf t, rowFilter := none, sortBy := "" } ∧
    RenderMarkdown { t with rowFilter := f, sortBy := s, reverseSort := b } =
      RenderMarkdown t ∧
    RenderCSV { t with rowFilter := f, sortBy := s, reverseSort := b } =
      RenderCSV t ∧
    RenderJSON { t with rowFilter := f, sortBy := s, reverseSort := b } =
      RenderJSON t ∧
    RenderHTML { t with rowFilter := f, sortBy := s, reverseSort := b } =
      RenderHTML t ∧
    RenderLaTeX { t with rowFilter := f, sortBy := s, reverseSort := b } =
      RenderLaTeX t ∧
    RenderMediaWiki { t with rowFilter := f, sortBy := s, reverseSort := b } =
      RenderMediaWiki t := by
  refine ⟨?_, ?_, rfl, rfl, rfl, rfl, rfl, rfl⟩
  · simp only [RenderASCII]
    rw [workingRows_subst sf t]
    rfl
  · simp only [RenderUnicode]
    rw [workingRows_subst sf t]
    rfl

/-- Concrete table with a row filter set, for the C1 counterexample. -/
def tFiltered : Table :=
  { NewTable with
    fieldNames := ["A"]
    rows := [[Cell.str "x"], [Cell.str "y"]]
    rowFilter := some (fun row => row.getD 0 (Cell.str "") != Cell.str "y") }

/-- C1 counterexample: with a filter that drops the `"y"` row, the
working row set contains only the `"x"` row, yet the Markdown output
still contains the filtered-out row — it differs from the Markdown
rendering of the working row set, so Markdown (likewise CSV, JSON, HTML,
LaTeX, MediaWiki) is not computed from the working rows. -/
theorem markdown_ignores_filter_counterexample :
    workingRows sortId tFiltered = [[Cell.str "x"]] ∧
    RenderMarkdown tFiltered = "| A | \n| --- | \n| x | \n| y | " ∧
    RenderMarkdown tFiltered ≠
      RenderMarkdown
        { tFiltered with rows := workingRows sortId tFiltered, rowFilter := none } := by
  decide

/-- The spec's scenario table: fields `["A","B"]` with rows
`[["foo",123],["bar",456]]`. -/
def tScenario : Table :=
  { NewTable with
    fieldNames := ["A", "B"]
    rows := [[Cell.str "foo", Cell.int 123], [Cell.str "bar", Cell.int 456]] }

/-- C4 counterexample: the Markdown renderer does not produce the four
claimed lines — every emitted line carries one trailing space after its
final pipe. -/
theorem scenario_markdown_counterexample :
    RenderMarkdown tScenario ≠
      "| A | B |\n| --- | --- |\n| foo | 123 |\n| bar | 456 |" := by
  decide

/-- C4 (amended): on the scenario table the ASCII renderer computes
column widths 3 and 3 and emits the bordered table, and the Markdown
renderer emits the four claimed lines except that each line ends with
one trailing space after its final pipe. -/
theorem scenario_renders :
    colWidthsBy goLen tScenario.fieldNames (workingRows sortId tScenario) = [3, 3] ∧
    RenderASCII sortId tScenario =
      "+-----+-----+\n| A   | B   |\n+-----+-----+\n| foo | 123 |\n| bar | 456 |\n+-----+-----+" ∧
    RenderMarkdown tScenario =
      "| A | B | \n| --- | --- | \n| foo | 123 | \n| bar | 456 | " := by
  decide
